import Mathlib

/-!
Verification of the client-side orchestration core of the MiSTer remote
game gallery front end (App.tsx): rate limiter, thumbnail cache,
debounce, pagination, local filtering, grid navigation, and the
React-effect state machine for scope switching and device-address
changes.  Times are in milliseconds (Nat), matching Date.now deltas.
-/

/-! ## Data model (App.tsx lines 7-28) -/

/-- GameSystem interface (App.tsx lines 7-12). -/
structure GameSystem where
  id : String
  name : String
  libRetroFolder : String
  image : Option String
deriving DecidableEq

/-- The nested system reference inside a GameEntry (App.tsx lines 15-18). -/
structure SystemRef where
  id : String
  name : String
deriving DecidableEq

/-- GameEntry interface (App.tsx lines 14-21). -/
structure GameEntry where
  system : SystemRef
  name : String
  path : String
deriving DecidableEq

/-! ## Rate limiter (App.tsx lines 54-74)

The source keeps two module-level variables, `tokens = 3` and
`lastReset = Date.now()`; `getThrottleSlot` polls `tryAcquire`, which
first refills the bucket when `now - lastReset >= 1000` and then either
consumes a token (the acquire completes) or re-schedules itself 50 ms
later.  `tokens` is only decremented under a `tokens > 0` guard, so it
never goes negative and `Nat` is a faithful carrier. -/

/-- The module-level mutable pair `tokens` / `lastReset` (App.tsx lines 54-55). -/
structure RateLimiterState where
  tokens : Nat
  lastReset : Nat
deriving DecidableEq

/-- Initial limiter state at module load time `t0`:
`let tokens = 3; let lastReset = Date.now()` (App.tsx lines 54-55). -/
def initLimiter (t0 : Nat) : RateLimiterState :=
  { tokens := 3, lastReset := t0 }

/-- The refill step at the top of `tryAcquire` (App.tsx lines 60-64):
`if (now - lastReset >= 1000) { tokens = 3; lastReset = now; }`.
With Nat subtraction, `1000 ≤ now - lastReset` holds exactly when
`lastReset + 1000 ≤ now`, matching the JS arithmetic on timestamps. -/
def refillIfElapsed (s : RateLimiterState) (now : Nat) : RateLimiterState :=
  if 1000 ≤ now - s.lastReset then { tokens := 3, lastReset := now } else s

/-- One invocation of `tryAcquire` at time `now` (App.tsx lines 59-71):
refill if the window elapsed, then consume a token and resolve (`true`),
or leave the state and re-poll later (`false`). -/
def acquireAttempt (s : RateLimiterState) (now : Nat) : RateLimiterState × Bool :=
  let s2 := refillIfElapsed s now
  if 0 < s2.tokens then ({ tokens := s2.tokens - 1, lastReset := s2.lastReset }, true)
  else (s2, false)

/-- Run a chronological sequence of `tryAcquire` invocations (the JS event
loop is single threaded, so the polls execute one after the other);
returns the final limiter state together with the timestamps at which an
acquire completed (resolved its promise). -/
def runAcquires : RateLimiterState → List Nat → RateLimiterState × List Nat
  | s, [] => (s, [])
  | s, t :: ts =>
    ((runAcquires (acquireAttempt s t).1 ts).1,
     (if (acquireAttempt s t).2 then [t] else []) ++ (runAcquires (acquireAttempt s t).1 ts).2)

/-- Number of completions that fall inside the rolling 1-second window
starting at `t0`. -/
def countInWindow (comps : List Nat) (t0 : Nat) : Nat :=
  (comps.filter (fun t => decide (t0 ≤ t) && decide (t < t0 + 1000))).length

/-! ## Debounce (App.tsx lines 192-197 and 704-709)

Each change of the raw input re-runs the effect: the cleanup clears the
previously scheduled 500 ms timer and a new one is scheduled.  A timer
scheduled by keystroke `i` therefore fires (committing that keystroke's
value as the effective term) exactly when no later keystroke arrives
before its 500 ms deadline. -/

/-- Effective-term updates produced by a chronological list of keystroke
events `(time, raw value)`: keystroke `i`'s timer fires at `tᵢ + 500`
unless the next keystroke arrives strictly before that deadline, in
which case the effect cleanup clears it (App.tsx lines 192-197).  The
final keystroke's timer always fires (silence afterwards). -/
def debounceUpdates : List (Nat × String) → List (Nat × String)
  | [] => []
  | [(t, v)] => [(t + 500, v)]
  | (t, v) :: (t2, v2) :: rest =>
      (if t + 500 ≤ t2 then [(t + 500, v)] else []) ++ debounceUpdates ((t2, v2) :: rest)

/-- JS whitespace test for the characters String.prototype.trim removes
(space, tab, line feed, carriage return cover the claims' inputs). -/
def isJsWs (c : Char) : Bool :=
  c.toNat = 32 || c.toNat = 9 || c.toNat = 10 || c.toNat = 13

/-- Model of `String.prototype.trim`: drop whitespace from both ends. -/
def strTrim (s : String) : String :=
  ⟨(((s.data.dropWhile isJsWs).reverse.dropWhile isJsWs).reverse : List Char)⟩

/-- Search calls issued by the global search effect (App.tsx lines
220-253) as the effective term goes through a list of debounce updates,
starting from previous term `prev` (initially the empty string): the
effect re-runs only when the term actually changes (React bails out on
identical state), returns early and clears results when the trimmed term
is empty, and otherwise issues exactly one throttled search for the
trimmed term.  This models the `Ready`, no-system-selected regime. -/
def globalCallsFrom (prev : String) : List (Nat × String) → List String
  | [] => []
  | (_, q) :: rest =>
      (if q ≠ prev ∧ strTrim q ≠ "" then [strTrim q] else []) ++ globalCallsFrom q rest

/-! ## Thumbnail cache (App.tsx lines 33-49)

`getCachedThumbnailUrl` normalizes the game name, looks the key up in
localStorage, and on a miss derives the boxart URL, persists it and
returns it.  localStorage is modeled as an association list where a
write shadows older entries (get returns the first match), which matches
the overwrite semantics of `setItem` / `getItem`. -/

/-- Model of the persisted key-value store (localStorage). -/
abbrev LocalStore := List (String × String)

/-- Model of `localStorage.getItem`: value of the most recent write to
the key, if any. -/
def lsGet : LocalStore → String → Option String
  | [], _ => none
  | (k, v) :: rest, key => if k = key then some v else lsGet rest key

/-- Model of `localStorage.setItem`: the new pair shadows any older
entry for the same key. -/
def lsSet (store : LocalStore) (k v : String) : LocalStore :=
  (k, v) :: store

/-- JS `game.name.replace("&", "_")` with a string pattern replaces only
the first occurrence (App.tsx line 34). -/
def replaceFirstAmp : List Char → List Char
  | [] => []
  | c :: cs => if c = '&' then Char.ofNat 95 :: cs else c :: replaceFirstAmp cs

/-- Characters `encodeURIComponent` leaves unescaped:
`A-Z a-z 0-9 - _ . ! ~ * ' ( )` (ECMA-262). -/
def isUriUnreserved (c : Char) : Bool :=
  (65 ≤ c.toNat && c.toNat ≤ 90) || (97 ≤ c.toNat && c.toNat ≤ 122) ||
  (48 ≤ c.toNat && c.toNat ≤ 57) ||
  c.toNat = 45 || c.toNat = 95 || c.toNat = 46 || c.toNat = 33 ||
  c.toNat = 126 || c.toNat = 42 || c.toNat = 39 || c.toNat = 40 || c.toNat = 41

/-- UTF-8 bytes of a character, as Nats. -/
def utf8Bytes (c : Char) : List Nat :=
  let n := c.toNat
  if n < 128 then [n]
  else if n < 2048 then [192 + n / 64, 128 + n % 64]
  else if n < 65536 then [224 + n / 4096, 128 + (n / 64) % 64, 128 + n % 64]
  else [240 + n / 262144, 128 + (n / 4096) % 64, 128 + (n / 64) % 64, 128 + n % 64]

/-- Uppercase hex digit of a value below 16. -/
def hexDigit (n : Nat) : Char :=
  if n < 10 then Char.ofNat (48 + n) else Char.ofNat (55 + n)

/-- Percent-escape of one byte: `%HH`. -/
def pctByte (b : Nat) : List Char :=
  [Char.ofNat 37, hexDigit (b / 16), hexDigit (b % 16)]

/-- Model of JS `encodeURIComponent`: unreserved characters pass
through, every other character is percent-encoded bytewise in UTF-8. -/
def encodeURIComponent (s : String) : String :=
  ⟨(s.data.map (fun c =>
      if isUriUnreserved c then [c] else (utf8Bytes c).map pctByte |>.flatten)).flatten⟩

/-- Cache key `thumbnail_<system.id>_<normalized name>` (App.tsx line 35). -/
def thumbKey (game : GameEntry) (system : GameSystem) : String :=
  "thumbnail_" ++ system.id ++ "_" ++ ⟨replaceFirstAmp game.name.data⟩

/-- The derived boxart URL (App.tsx lines 41-45). -/
def thumbDerivedUrl (game : GameEntry) (system : GameSystem) : String :=
  "https://thumbnails.libretro.com" ++ "/" ++ encodeURIComponent system.libRetroFolder ++
  "/" ++ "Named_Boxarts" ++ "/" ++ (encodeURIComponent ⟨replaceFirstAmp game.name.data⟩ ++ ".png")

/-- `getCachedThumbnailUrl` (App.tsx lines 33-49): `if (cached) return cached`
is a JS truthiness test, so both a missing key and an empty-string value
fall through to the recompute path, which derives the URL, persists it
under the key via `setItem` (overwriting an empty-string entry if one
was planted there externally; the program itself never writes an empty
value under a thumbnail key) and returns it.  A non-empty cached value
is returned unchanged with no write.  Returns the URL and the store
after the call. -/
def getCachedThumbnailUrl (game : GameEntry) (system : GameSystem) (store : LocalStore) :
    String × LocalStore :=
  match lsGet store (thumbKey game system) with
  | some cached =>
      if cached ≠ "" then (cached, store)
      else (thumbDerivedUrl game system,
            lsSet store (thumbKey game system) (thumbDerivedUrl game system))
  | none =>
      (thumbDerivedUrl game system,
       lsSet store (thumbKey game system) (thumbDerivedUrl game system))

/-! ## Per-system local filter and pagination (App.tsx lines 701-731)

GamesView filters the fetched list locally:
`games.filter((g) => g.name.toLowerCase().includes(searchTerm.toLowerCase()))`
and pages it with `filtered.slice((page-1)*10, (page-1)*10 + 10)`;
`totalPages = Math.ceil(filtered.length / itemsPerPage)`, and the only
page transitions are `handlePrev`/`handleNext`, which clamp. -/

/-- Model of `String.prototype.toLowerCase` (ASCII range, which is what
`Char.toLower` lowers; game names in scope are ASCII). -/
def strToLower (s : String) : String :=
  ⟨s.data.map Char.toLower⟩

/-- Model of `String.prototype.includes`: contiguous-substring test. -/
def strIncludes (s pat : String) : Bool :=
  decide (pat.data <:+: s.data)

/-- The GamesView local filter (App.tsx lines 714-716). -/
def localFilter (games : List GameEntry) (term : String) : List GameEntry :=
  games.filter (fun g => strIncludes (strToLower g.name) (strToLower term))

/-- `itemsPerPage` (App.tsx line 712). -/
def itemsPerPage : Nat := 10

/-- `Math.ceil(n / pageSize)` on Nats (App.tsx line 718). -/
def totalPages (n pageSize : Nat) : Nat :=
  (n + pageSize - 1) / pageSize

/-- The slice `filtered.slice((page-1)*pageSize, (page-1)*pageSize + pageSize)`
(App.tsx lines 719-721). -/
def paginate {α : Type} (items : List α) (pageSize page : Nat) : List α :=
  (items.drop ((page - 1) * pageSize)).take pageSize

/-- `handlePrev = setPage(p => Math.max(1, p - 1))` (App.tsx line 730).
`p` is a positive page number, so Nat subtraction agrees with JS here. -/
def handlePrev (p : Nat) : Nat :=
  max 1 (p - 1)

/-- `handleNext = setPage(p => Math.min(totalPages, p + 1))` (App.tsx line 731). -/
def handleNext (tot p : Nat) : Nat :=
  min tot (p + 1)

/-! ## Grid navigation (App.tsx lines 772-784)

`navigateByArrow` computes the new focus index over the current page's
item list (`pagedGames.length` items, `colCount` columns).  JS numbers
can go negative before the `Math.max`, so the index arithmetic is over
Int. -/

/-- `navigateByArrow` (App.tsx lines 772-784): Left/Right move by ±1,
Up/Down by ±columns, clamped to `[0, n-1]`; any other key leaves the
index unchanged. -/
def navigateByArrow (key : String) (idx n cols : Int) : Int :=
  if key = "ArrowLeft" then max (idx - 1) 0
  else if key = "ArrowRight" then min (idx + 1) (n - 1)
  else if key = "ArrowUp" then max (idx - cols) 0
  else if key = "ArrowDown" then min (idx + cols) (n - 1)
  else idx

/-! ## App orchestration state (App.tsx lines 153-286)

The React state of the App component, together with the per-system
GamesView local state (which is freshly mounted whenever a system is
selected, so its `useState` initializers run again: `searchInput = ""`,
`searchTerm = ""`, `page = 1`, App.tsx lines 702-711).  Transitions
below embed one user event plus the effects it triggers; alongside the
new state each transition returns the throttled network calls issued. -/

/-- One outbound throttled HTTP call of the app. -/
inductive ApiCall where
  | index
  | search (query : String) (system : String)
  | launch (path : String)
deriving DecidableEq

/-- The orchestration state: App component state (App.tsx lines 154-189)
plus the mounted GamesView local state (lines 702-711). -/
structure AppState where
  misterIp : String
  indexReady : Bool
  errorMsg : Option String
  selectedSystem : Option GameSystem
  games : List GameEntry
  loadingGames : Bool
  globalSearchInput : String
  globalSearchTerm : String
  globalResults : List GameEntry
  globalLoading : Bool
  sysFilterInput : String
  sysFilterTerm : String
  sysPage : Nat
deriving DecidableEq

/-- Selecting a system (App.tsx lines 400, 256-271): `setSelectedSystem(sys)`
runs the fetch effect, which sets loading, clears the error and issues
exactly one throttled search with body `query = ""`, `system = sys.id`
— there is no debounce timer on this path.  GamesView mounts fresh, so
its filter input/term and page state take their initial values. -/
def selectSystemApp (s : GameSystem) (st : AppState) : AppState × List ApiCall :=
  ({ st with
      selectedSystem := some s
      loadingGames := true
      errorMsg := none
      sysFilterInput := ""
      sysFilterTerm := ""
      sysPage := 1 },
   [ApiCall.search "" s.id])

/-- Applying the response of the per-system fetch (App.tsx lines 275-283):
`setGames(data.data)` then `setLoadingGames(false)`. -/
def applyGamesResponse (resp : List GameEntry) (st : AppState) : AppState :=
  { st with games := resp, loadingGames := false }

/-- Deselecting the system via Back (App.tsx lines 421, 257-260):
`setSelectedSystem(null)` makes the fetch effect clear the loaded list
(`setGames([])`), and the global search effect re-runs: with the index
ready and a non-empty trimmed term still present it issues a global
search again (lines 220-253). -/
def deselectSystemApp (st : AppState) : AppState × List ApiCall :=
  let st2 := { st with selectedSystem := none, games := [] }
  if st2.indexReady ∧ strTrim st2.globalSearchTerm ≠ "" then
    ({ st2 with globalLoading := true, errorMsg := none },
     [ApiCall.search (strTrim st2.globalSearchTerm) ""])
  else (st2, [])

/-- The debounce timer firing with value `q` (App.tsx lines 192-197)
followed by the global search effect (lines 220-253): outside the
ready/global regime the effect returns early; an empty trimmed term
clears results with no call; otherwise one throttled global search is
issued for the trimmed term. -/
def commitGlobalTermApp (q : String) (st : AppState) : AppState × List ApiCall :=
  let st2 := { st with globalSearchTerm := q }
  if ¬ st2.indexReady then (st2, [])
  else if st2.selectedSystem.isSome then (st2, [])
  else if strTrim q = "" then ({ st2 with globalResults := [] }, [])
  else ({ st2 with globalLoading := true, errorMsg := none },
        [ApiCall.search (strTrim q) ""])

/-- Arrival of a global search response (App.tsx lines 241-248): the
continuation runs `setGlobalResults(data.data)` and
`setGlobalLoading(false)` unconditionally — it performs no check that
the device address (or the query) it was issued for is still current. -/
def applyGlobalSearchResponse (resp : List GameEntry) (st : AppState) : AppState :=
  { st with globalResults := resp, globalLoading := false }

/-- Saving a new device address (App.tsx lines 477-479 and the effects
keyed on `misterIp`): `setMisterIp` re-runs the index effect (lines
200-217, one throttled index call), the per-system fetch if a system is
selected (lines 256-286), and the global search effect in the global
regime (lines 220-253).  Nothing is recorded about requests already in
flight. -/
def setMisterIpApp (ip : String) (st : AppState) : AppState × List ApiCall :=
  let st2 := { st with misterIp := ip }
  match st2.selectedSystem with
  | some s =>
      ({ st2 with loadingGames := true, errorMsg := none },
       [ApiCall.index, ApiCall.search "" s.id])
  | none =>
      if st2.indexReady ∧ strTrim st2.globalSearchTerm ≠ "" then
        ({ st2 with globalLoading := true, errorMsg := none },
         [ApiCall.index, ApiCall.search (strTrim st2.globalSearchTerm) ""])
      else (st2, [ApiCall.index])

/-- A keystroke in the per-system filter box (App.tsx line 827):
`setSearchInput` only; the search term waits for the debounce and no
network call is made. -/
def typeSysFilterApp (t : String) (st : AppState) : AppState × List ApiCall :=
  ({ st with sysFilterInput := t }, [])

/-- The per-system debounce timer firing (App.tsx lines 704-709) and the
page-reset effect (lines 726-728): the term is committed, the page
resets to 1, and no network call is made — the displayed list is
`paginate (localFilter st.games st.sysFilterTerm) itemsPerPage st.sysPage`,
a pure function of the state (lines 714-721). -/
def commitSysFilterApp (t : String) (st : AppState) : AppState × List ApiCall :=
  ({ st with sysFilterTerm := t, sysPage := 1 }, [])

/-- A concrete system (the NES entry of the SYSTEMS table, App.tsx
lines 93-98). -/
def nesSystem : GameSystem :=
  { id := "NES"
    name := "Nintendo Entertainment System"
    libRetroFolder := "Nintendo - Nintendo Entertainment System"
    image := none }

/-- A concrete game entry used in witnesses. -/
def zeldaGame : GameEntry :=
  { system := { id := "NES", name := "Nintendo Entertainment System" }
    name := "Legend of Zelda, The"
    path := "/media/fat/games/NES/zelda.nes" }

/-- A concrete ready state in the global scope with a pending query. -/
def readyGlobalState : AppState :=
  { misterIp := "192.168.1.2"
    indexReady := true
    errorMsg := none
    selectedSystem := none
    games := []
    loadingGames := false
    globalSearchInput := "zelda"
    globalSearchTerm := "zelda"
    globalResults := []
    globalLoading := true
    sysFilterInput := ""
    sysFilterTerm := ""
    sysPage := 1 }

/-! ## Helper lemmas for the rate limiter -/

/-- Below the window boundary, `tryAcquire` performs no refill. -/
theorem refillIfElapsed_skip (s : RateLimiterState) (t : Nat) (h : t < s.lastReset + 1000) :
    refillIfElapsed s t = s := by
  unfold refillIfElapsed
  have hnot : ¬ (1000 ≤ t - s.lastReset) := by omega
  simp [hnot]

/-- While every attempt time stays below `lastReset + 1000`, no refill
happens: the completion count plus the remaining tokens equals the
starting tokens, and `lastReset` is unchanged. -/
theorem runAcquires_fixed_window (s : RateLimiterState) (ts : List Nat)
    (h : ∀ t ∈ ts, t < s.lastReset + 1000) :
    ((runAcquires s ts).2).length + ((runAcquires s ts).1).tokens = s.tokens
    ∧ ((runAcquires s ts).1).lastReset = s.lastReset := by
  induction ts generalizing s with
  | nil => simp [runAcquires]
  | cons t ts ih =>
    have ht : t < s.lastReset + 1000 := h t (by simp)
    have hrefill : refillIfElapsed s t = s := refillIfElapsed_skip s t ht
    have hrest : ∀ u ∈ ts, u < s.lastReset + 1000 := by
      intro u hu
      exact h u (by simp [hu])
    by_cases htok : 0 < s.tokens
    · have hstep : acquireAttempt s t
          = ({ tokens := s.tokens - 1, lastReset := s.lastReset }, true) := by
        unfold acquireAttempt
        simp [hrefill, htok]
      obtain ⟨ih1, ih2⟩ := ih { tokens := s.tokens - 1, lastReset := s.lastReset } hrest
      simp only [runAcquires, hstep, if_pos, List.length_append, List.length_cons,
        List.length_nil] at ih1 ih2 ⊢
      exact ⟨by omega, ih2⟩
    · have hstep : acquireAttempt s t = (s, false) := by
        unfold acquireAttempt
        simp [hrefill, htok]
      obtain ⟨ih1, ih2⟩ := ih s hrest
      simp only [runAcquires, hstep, if_neg, Bool.false_eq_true, not_false_eq_true,
        List.nil_append] at ih1 ih2 ⊢
      exact ⟨ih1, ih2⟩

/-- One `tryAcquire` invocation keeps the token count within capacity. -/
theorem acquireAttempt_tokens_le (s : RateLimiterState) (t : Nat) (h : s.tokens ≤ 3) :
    ((acquireAttempt s t).1).tokens ≤ 3 := by
  by_cases h1 : 1000 ≤ t - s.lastReset <;> by_cases h2 : 0 < s.tokens <;>
    simp [acquireAttempt, refillIfElapsed, h1, h2] <;> omega

/-- Any sequence of `tryAcquire` invocations keeps the token count
within capacity. -/
theorem runAcquires_tokens_le (s : RateLimiterState) (ts : List Nat) (h : s.tokens ≤ 3) :
    ((runAcquires s ts).1).tokens ≤ 3 := by
  induction ts generalizing s with
  | nil => simpa [runAcquires] using h
  | cons t ts ih =>
      simp only [runAcquires]
      exact ih _ (acquireAttempt_tokens_le s t h)

/-! ## Claim theorems -/

/-- C1 (code behavior at the failing input): the global-search response
continuation applies its payload via `setGlobalResults` with no check of
the current device address.  Starting from a ready global-scope state on
address 192.168.1.2 with a search in flight, changing the address to
192.168.1.3 and then letting the pending response (issued for the old
address) arrive leaves that stale payload as the displayed result state
— it is applied, not discarded. -/
theorem staleGlobalResponseApplied :
    (applyGlobalSearchResponse [zeldaGame]
        (setMisterIpApp "192.168.1.3" readyGlobalState).1).globalResults = [zeldaGame]
    ∧ (setMisterIpApp "192.168.1.3" readyGlobalState).1.misterIp = "192.168.1.3"
    ∧ readyGlobalState.misterIp = "192.168.1.2" := by
  decide

/-- C2 (amended): at most 3 acquires complete while the limiter stays
inside one refill window (no attempt reaches `lastReset + 1000`), and
`acquire` never fails, only delays — an attempt at or after
`lastReset + 1000` always succeeds. -/
theorem rateLimiter_window_bound :
    (∀ (s : RateLimiterState) (ts : List Nat), s.tokens ≤ 3 →
        (∀ t ∈ ts, t < s.lastReset + 1000) → ((runAcquires s ts).2).length ≤ 3)
    ∧ (∀ (s : RateLimiterState) (now : Nat), s.lastReset + 1000 ≤ now →
        (acquireAttempt s now).2 = true) := by
  constructor
  · intro s ts hs h
    have hfix := (runAcquires_fixed_window s ts h).1
    omega
  · intro s now h
    have hre : 1000 ≤ now - s.lastReset := by omega
    simp [acquireAttempt, refillIfElapsed, hre]

/-- C2 witness: five instantaneous attempts right after load complete at
most 3 times, and an attempt one full window after load succeeds. -/
theorem rateLimiter_window_bound_witness :
    ((runAcquires (initLimiter 0) [0, 10, 20, 30, 40]).2).length ≤ 3
    ∧ (acquireAttempt (initLimiter 0) 1000).2 = true :=
  ⟨rateLimiter_window_bound.1 (initLimiter 0) [0, 10, 20, 30, 40] (by decide) (by decide),
   rateLimiter_window_bound.2 (initLimiter 0) 1000 (by decide)⟩

/-- C2 counterexample: with the module loaded at t = 0, six `acquire`
calls issued instantaneously at t = 990 produce exactly this
`tryAcquire` schedule — six immediate attempts (three succeed, the
bucket empties) and the three blocked callers re-polling 50 ms later at
t = 1040, where the burst refill lets all three through.  Six
completions then land inside the single rolling 1-second window
[990, 1990), refuting the claim that at most 3 complete within any
rolling 1-second window. -/
theorem rateLimiter_rolling_window_violation :
    3 < countInWindow
        (runAcquires (initLimiter 0) [990, 990, 990, 990, 990, 990, 1040, 1040, 1040]).2 990 := by
  decide

/-- C3: the token count starts at capacity 3, stays at most 3 (and at
least 0, being a Nat whose decrement is guarded by `tokens > 0`) across
any sequence of acquire attempts, and whenever the current time is at
least `windowStart + 1000` — in particular whenever it exceeds it — the
refill step replenishes the bucket to exactly 3 tokens, so after a
window elapses with no calls exactly 3 tokens are available to the next
attempt. -/
theorem rateLimiter_token_invariant :
    (∀ t0, (initLimiter t0).tokens = 3)
    ∧ (∀ (s : RateLimiterState) (ts : List Nat), s.tokens ≤ 3 →
        ((runAcquires s ts).1).tokens ≤ 3)
    ∧ (∀ (s : RateLimiterState) (now : Nat), s.lastReset + 1000 ≤ now →
        (refillIfElapsed s now).tokens = 3) := by
  refine ⟨fun t0 => rfl, runAcquires_tokens_le, ?_⟩
  intro s now h
  have hre : 1000 ≤ now - s.lastReset := by omega
  simp [refillIfElapsed, hre]

/-- C3 witness: a concrete run keeps tokens within capacity, and the
refill at t = 1200 after a silent window restores exactly 3 tokens. -/
theorem rateLimiter_token_invariant_witness :
    ((runAcquires (initLimiter 0) [0, 1, 2, 1500]).1).tokens ≤ 3
    ∧ (refillIfElapsed (initLimiter 0) 1200).tokens = 3 :=
  ⟨rateLimiter_token_invariant.2.1 (initLimiter 0) [0, 1, 2, 1500] (by decide),
   rateLimiter_token_invariant.2.2 (initLimiter 0) 1200 (by decide)⟩

/-- C4: keystrokes at t = 0, 100, 200, 300 followed by silence produce
exactly one effective-query update, at t = 800, carrying the final
value; and typing zelda then zeld within 500 ms yields exactly one
global search call, for zeld, and never one for zelda. -/
theorem debounce_single_update :
    (∀ a b c d : String,
        debounceUpdates [(0, a), (100, b), (200, c), (300, d)] = [(800, d)])
    ∧ (∀ t2 : Nat, t2 < 500 →
        globalCallsFrom "" (debounceUpdates [(0, "zelda"), (t2, "zeld")]) = ["zeld"]
        ∧ "zelda" ∉ globalCallsFrom "" (debounceUpdates [(0, "zelda"), (t2, "zeld")])) := by
  constructor
  · intro a b c d
    simp [debounceUpdates]
  · intro t2 h
    have hn : ¬ (0 + 500 ≤ t2) := by omega
    have hdb : debounceUpdates [(0, "zelda"), (t2, "zeld")] = [(t2 + 500, "zeld")] := by
      simp [debounceUpdates, hn]
    rw [hdb]
    constructor
    · simp only [globalCallsFrom]
      decide
    · simp only [globalCallsFrom]
      decide

/-- C4 witness: the debounce scenario at concrete values. -/
theorem debounce_single_update_witness :
    debounceUpdates [(0, "w"), (100, "x"), (200, "y"), (300, "z")] = [(800, "z")]
    ∧ globalCallsFrom "" (debounceUpdates [(0, "zelda"), (200, "zeld")]) = ["zeld"] :=
  ⟨debounce_single_update.1 "w" "x" "y" "z", (debounce_single_update.2 200 (by decide)).1⟩

/-- C5 counterexample: in a ready global-scope state whose pending
global query is zelda (with results already displayed), selecting the
NES system leaves the global search term, the raw input and the global
results all in place — selecting a system does not clear the pending
global query state, refuting that part of the claim. -/
theorem selectSystem_keeps_global_state :
    (selectSystemApp nesSystem
        { readyGlobalState with globalResults := [zeldaGame] }).1.globalSearchTerm = "zelda"
    ∧ (selectSystemApp nesSystem
        { readyGlobalState with globalResults := [zeldaGame] }).1.globalSearchInput = "zelda"
    ∧ (selectSystemApp nesSystem
        { readyGlobalState with globalResults := [zeldaGame] }).1.globalResults = [zeldaGame] := by
  decide

/-- C5 (amended): exactly one scope is active at a time (a single
optional selected system); selecting a system resets the per-system
filter and page state of the freshly entered scope, while the pending
global query state (input, term, results) persists untouched; and
deselecting the system clears the loaded per-system list and returns the
scope to Global. -/
theorem scope_switch_behavior (s : GameSystem) (st : AppState) :
    (selectSystemApp s st).1.selectedSystem = some s
    ∧ (selectSystemApp s st).1.sysFilterInput = ""
    ∧ (selectSystemApp s st).1.sysFilterTerm = ""
    ∧ (selectSystemApp s st).1.sysPage = 1
    ∧ (deselectSystemApp st).1.selectedSystem = none
    ∧ (deselectSystemApp st).1.games = []
    ∧ (selectSystemApp s st).1.globalSearchTerm = st.globalSearchTerm
    ∧ (selectSystemApp s st).1.globalResults = st.globalResults := by
  refine ⟨rfl, rfl, rfl, rfl, ?_, ?_, rfl, rfl⟩ <;>
    · by_cases hc : st.indexReady = true ∧ strTrim st.globalSearchTerm ≠ "" <;>
        simp [deselectSystemApp, hc]

/-- C6: the paginator returns the slice from `(page-1)*pageSize` to
`page*pageSize`, `totalPages` is the ceiling of `length / pageSize`
(sharp from both sides); for 23 items with page size 10 there are 3
pages and page 3 holds exactly 3 items; and the only page transitions,
`handlePrev` and `handleNext`, clamp the requested page into `[1, 3]`
before any slicing can see it. -/
theorem paginate_contract :
    (∀ (items : List GameEntry) (ps p : Nat), 1 ≤ p →
        paginate items ps p = (items.take (p * ps)).drop ((p - 1) * ps))
    ∧ (∀ n ps : Nat, 0 < ps →
        n ≤ totalPages n ps * ps ∧ totalPages n ps * ps < n + ps)
    ∧ totalPages 23 10 = 3
    ∧ (∀ items : List GameEntry, items.length = 23 → (paginate items 10 3).length = 3)
    ∧ (∀ p : Nat, 1 ≤ p → p ≤ 3 →
        1 ≤ handleNext 3 p ∧ handleNext 3 p ≤ 3 ∧ 1 ≤ handlePrev p ∧ handlePrev p ≤ 3)
    ∧ handleNext 3 3 = 3 ∧ handlePrev 1 = 1 := by
  refine ⟨?_, ?_, by decide, ?_, ?_, by decide, by decide⟩
  · intro items ps p hp
    obtain ⟨p, rfl⟩ : ∃ q, p = q + 1 := ⟨p - 1, by omega⟩
    unfold paginate
    rw [List.take_drop]
    have he : p + 1 - 1 = p := by omega
    have he2 : p * ps + ps = (p + 1) * ps := by ring
    rw [he, he2]
  · intro n ps hps
    unfold totalPages
    have hd : ps * ((n + ps - 1) / ps) + (n + ps - 1) % ps = n + ps - 1 :=
      Nat.div_add_mod _ _
    have hm : (n + ps - 1) % ps < ps := Nat.mod_lt _ hps
    rw [Nat.mul_comm]
    generalize hk : ps * ((n + ps - 1) / ps) = k at hd ⊢
    omega
  · intro items h
    simp [paginate, List.length_take, List.length_drop, h]
  · intro p h1 h2
    unfold handleNext handlePrev
    omega

/-- C6 witness: the contract evaluated on a concrete 23-item list. -/
theorem paginate_contract_witness :
    paginate (List.replicate 23 zeldaGame) 10 2
      = ((List.replicate 23 zeldaGame).take (2 * 10)).drop ((2 - 1) * 10)
    ∧ (23 ≤ totalPages 23 10 * 10 ∧ totalPages 23 10 * 10 < 23 + 10)
    ∧ (paginate (List.replicate 23 zeldaGame) 10 3).length = 3
    ∧ (1 ≤ handleNext 3 2 ∧ handleNext 3 2 ≤ 3 ∧ 1 ≤ handlePrev 2 ∧ handlePrev 2 ≤ 3) :=
  ⟨paginate_contract.1 (List.replicate 23 zeldaGame) 10 2 (by decide),
   paginate_contract.2.1 23 10 (by decide),
   paginate_contract.2.2.2.1 (List.replicate 23 zeldaGame) (by simp),
   paginate_contract.2.2.2.2.1 2 (by decide) (by decide)⟩

/-- C7: for any key, any item count of at least 1, any nonnegative
column count and any in-range current index, the arrow navigation lands
inside `[0, itemCount - 1]` (clamping, no wrap); with 7 items and 5
columns, ArrowDown from 2 gives 6, ArrowUp from 6 gives 1, and
ArrowLeft from 0 stays at 0. -/
theorem navigateByArrow_clamped :
    (∀ (key : String) (idx n cols : Int), 1 ≤ n → 0 ≤ cols → 0 ≤ idx → idx ≤ n - 1 →
        0 ≤ navigateByArrow key idx n cols ∧ navigateByArrow key idx n cols ≤ n - 1)
    ∧ navigateByArrow "ArrowDown" 2 7 5 = 6
    ∧ navigateByArrow "ArrowUp" 6 7 5 = 1
    ∧ navigateByArrow "ArrowLeft" 0 7 5 = 0 := by
  refine ⟨?_, by decide, by decide, by decide⟩
  intro key idx n cols hn hc h0 h1
  unfold navigateByArrow
  split_ifs <;> refine ⟨?_, ?_⟩ <;> omega

/-- C7 witness: the clamping bound at a concrete input. -/
theorem navigateByArrow_clamped_witness :
    0 ≤ navigateByArrow "ArrowDown" 2 7 5 ∧ navigateByArrow "ArrowDown" 2 7 5 ≤ 7 - 1 :=
  navigateByArrow_clamped.1 "ArrowDown" 2 7 5 (by decide) (by decide) (by decide) (by decide)

/-- C8: selecting a system issues exactly one throttled search call with
body `query = ""` and `system = s.id` (and nothing else), with no
debounce delay on that path; typing in the per-system filter box and
committing the per-system filter term issue no network calls — the
narrowed list is computed locally from the already-fetched games. -/
theorem selectSystem_single_call (s : GameSystem) (st : AppState) (t : String) :
    (selectSystemApp s st).2 = [ApiCall.search "" s.id]
    ∧ (typeSysFilterApp t st).2 = []
    ∧ (commitSysFilterApp t st).2 = [] :=
  ⟨rfl, rfl, rfl⟩

/-- The derived boxart URL is never the empty string (it contains the
literal path segments), so the value `resolve` persists is always
truthy: a later lookup of it is a cache hit. -/
theorem thumbDerivedUrl_ne_empty (game : GameEntry) (system : GameSystem) :
    thumbDerivedUrl game system ≠ "" := by
  unfold thumbDerivedUrl
  intro h
  have hlen := congrArg String.length h
  simp [String.length_append] at hlen
  exact absurd hlen.1.1.2 (by decide)

/-- C9: thumbnail URL resolution is idempotent — for any game, system
and store, the second call returns the identical URL and leaves the
store unchanged (it is a cache hit: after the first call the key holds
the returned URL, and that URL is never the empty string, so the
truthiness check `if (cached)` accepts it); and no entry the cache ever
persists is overwritten with a different value: every value `resolve`
writes is non-empty, and any key bound to a non-empty value keeps that
value across a resolve call.  (An empty-string entry is not a value the
program can persist under a thumbnail key — `resolve` writes only
derived URLs and the only other store writer uses the key `misterIp` —
and an externally planted empty entry is falsy, hence treated as a miss
and overwritten, matching `if (cached)` in the source.) -/
theorem thumbnail_resolve_idempotent (game : GameEntry) (system : GameSystem) (store : LocalStore) :
    (getCachedThumbnailUrl game system (getCachedThumbnailUrl game system store).2).1
      = (getCachedThumbnailUrl game system store).1
    ∧ (getCachedThumbnailUrl game system (getCachedThumbnailUrl game system store).2).2
      = (getCachedThumbnailUrl game system store).2
    ∧ lsGet (getCachedThumbnailUrl game system store).2 (thumbKey game system)
      = some (getCachedThumbnailUrl game system store).1
    ∧ (getCachedThumbnailUrl game system store).1 ≠ ""
    ∧ (∀ k v, v ≠ "" → lsGet store k = some v →
        lsGet (getCachedThumbnailUrl game system store).2 k = some v) := by
  have hne := thumbDerivedUrl_ne_empty game system
  have hhit : lsGet (lsSet store (thumbKey game system) (thumbDerivedUrl game system))
      (thumbKey game system) = some (thumbDerivedUrl game system) := by
    simp [lsGet, lsSet]
  cases h : lsGet store (thumbKey game system) with
  | some cached =>
      by_cases hc : cached = ""
      · subst hc
        refine ⟨?_, ?_, ?_, ?_, ?_⟩
        · simp [getCachedThumbnailUrl, h, hhit, hne]
        · simp [getCachedThumbnailUrl, h, hhit, hne]
        · simp [getCachedThumbnailUrl, h, hhit, hne]
        · simp [getCachedThumbnailUrl, h, hne]
        · intro k v hv hkv
          by_cases hk : thumbKey game system = k
          · rw [← hk] at hkv
            rw [hkv] at h
            exact absurd (Option.some.inj h) hv
          · simp [getCachedThumbnailUrl, h, lsSet, lsGet, hk, hkv]
      · refine ⟨?_, ?_, ?_, ?_, ?_⟩ <;> simp [getCachedThumbnailUrl, h, hc]
  | none =>
      refine ⟨?_, ?_, ?_, ?_, ?_⟩
      · simp [getCachedThumbnailUrl, h, hhit, hne]
      · simp [getCachedThumbnailUrl, h, hhit, hne]
      · simp [getCachedThumbnailUrl, h, hhit, hne]
      · simp [getCachedThumbnailUrl, h, hne]
      · intro k v hv hkv
        by_cases hk : thumbKey game system = k
        · rw [← hk] at hkv
          rw [hkv] at h
          exact absurd h (by simp)
        · simp [getCachedThumbnailUrl, h, lsSet, lsGet, hk, hkv]

/-- C9 witness: two resolves of the same game on a store that already
holds an unrelated non-empty key agree, and the unrelated key survives. -/
theorem thumbnail_resolve_idempotent_witness :
    (getCachedThumbnailUrl zeldaGame nesSystem
        (getCachedThumbnailUrl zeldaGame nesSystem [("misterIp", "mister.local")]).2).1
      = (getCachedThumbnailUrl zeldaGame nesSystem [("misterIp", "mister.local")]).1
    ∧ lsGet (getCachedThumbnailUrl zeldaGame nesSystem [("misterIp", "mister.local")]).2 "misterIp"
      = some "mister.local" :=
  ⟨(thumbnail_resolve_idempotent zeldaGame nesSystem [("misterIp", "mister.local")]).1,
   (thumbnail_resolve_idempotent zeldaGame nesSystem [("misterIp", "mister.local")]).2.2.2.2
     "misterIp" "mister.local" (by decide) (by decide)⟩

/-- C10: the local per-system filter keeps exactly the games whose
lowercased name contains the lowercased term as a contiguous substring,
preserves the original order (the result is a sublist), and the empty
term keeps every game. -/
theorem localFilter_characterization :
    (∀ (games : List GameEntry) (term : String) (g : GameEntry),
        g ∈ localFilter games term ↔
          g ∈ games ∧ (strToLower term).data <:+: (strToLower g.name).data)
    ∧ (∀ (games : List GameEntry) (term : String), (localFilter games term).Sublist games)
    ∧ (∀ games : List GameEntry, localFilter games "" = games) := by
  refine ⟨?_, ?_, ?_⟩
  · intro games term g
    simp [localFilter, List.mem_filter, strIncludes]
  · intro games term
    exact List.filter_sublist games
  · intro games
    apply List.filter_eq_self.mpr
    intro g hg
    have h0 : (strToLower "").data = [] := rfl
    simp [strIncludes, h0, List.nil_infix]
